import Mathlib

/-!
Verification development for the sneaky-town rules engine.

The repository persists its game state through a Convex schema
(rounds.boardState, rounds.player1SightTiles, moves.action, ...); the data
shapes below are shallow embeddings of that schema.  Lattice cells, reserve
counts, reveal slots and swap slots carry only occupancy information
(0 = empty, 1 = player1 stone, 2 = player2 stone) exactly as the schema
declares; in particular neither the board state nor the move log records
stone identities.  Fixed-size arrays of the schema are embedded as functions
out of Fin types; the arbitrary JavaScript numbers used as indices inside
actions are embedded as Nat.

The engine operations (move validation, state application, clock handling,
scoring, replay) are not present in the repository source; they are modelled
from the specification, as marked on each definition.
-/

namespace SneakyTown

inductive Player where
  | player1
  | player2
  deriving DecidableEq

def opponent : Player → Player
  | .player1 => .player2
  | .player2 => .player1

/-- Occupancy marker used by the schema for lattice and swap cells:
player1 stones are stored as 1, player2 stones as 2. -/
def playerNum : Player → Nat
  | .player1 => 1
  | .player2 => 2

inductive Tile where
  | blueSun
  | brownSun
  | flower
  | voidTile
  deriving DecidableEq

inductive RoundStatus where
  | setup
  | active
  | scoring
  | completed
  deriving DecidableEq

/-- Lattice address as recorded in the move log: two arbitrary numbers. -/
structure LatticePos where
  leftIndex : Nat
  rightIndex : Nat
  deriving DecidableEq

/-- Discriminated union of the six action types, embedded from the
moves.action validator of the schema (which records no stone ids). -/
inductive Action where
  | cast (position : LatticePos)
  | transfer (fromPosition : LatticePos) (toPosition : LatticePos)
  | recover (fromPosition : LatticePos)
  | reveal (targetPlayer : Player) (sightLineIndex : Nat)
  | swap (swapRow : Nat) (swapCol : Nat)
      (ownStonePosition : LatticePos) (opponentStonePosition : LatticePos)
  | endRound
  deriving DecidableEq

/-- Error taxonomy of the specification, section 7. -/
inductive RejectionReason where
  | notYourTurn
  | wrongRoundPhase
  | invalidStoneState
  | targetOccupied
  | targetEmpty
  | slotOccupied
  | selfTargetInSwap
  | unknownStone
  | unknownSlot
  deriving DecidableEq

/-- Seconds remaining per player (rounds.timeRemaining in the schema). -/
structure TimeBank where
  player1 : Int
  player2 : Int
  deriving DecidableEq

/-- Board state as persisted by the schema (rounds.boardState): a 5x5 lattice
of occupancy numbers, per-player reserve counts, five boolean reveal slots
per player (left side = player1, right side = player2) and a shared 2x6 grid
of swap slots holding occupancy numbers. -/
structure BoardState where
  lattice : Fin 5 × Fin 5 → Nat
  player1ReserveCount : Nat
  player2ReserveCount : Nat
  player1RevealPositions : Fin 5 → Bool
  player2RevealPositions : Fin 5 → Bool
  swapPositions : Fin 2 × Fin 6 → Nat
  deriving DecidableEq

/-- Revealed sight tile bitmask of the schema (rounds.revealedSightTiles). -/
structure RevealedSightTiles where
  player1 : Fin 5 → Bool
  player2 : Fin 5 → Bool
  deriving DecidableEq

/-- Scoring record of the schema (rounds.scoring); the winner field admits
only the two players, never a draw. -/
structure ScoringResult where
  capturedCharms1 : List Tile
  capturedCharms2 : List Tile
  revealedVoids1 : Nat
  revealedVoids2 : Nat
  points1 : Int
  points2 : Int
  winner : Player
  deriving DecidableEq

/-- Round record of the schema (rounds table).  The incrementSeconds field is
the round's copy of the game's time-control increment, which the clock
controller of the specification reads on every accepted move. -/
structure RoundState where
  status : RoundStatus
  firstPlayer : Player
  currentTurnPlayer : Player
  turnNumber : Nat
  turnStartedAt : Int
  timeRemaining : Option TimeBank
  incrementSeconds : Int
  startedAt : Int
  endedAt : Option Int
  endedBy : Option Player
  boardState : BoardState
  player1SightTiles : Fin 5 → Tile
  player2SightTiles : Fin 5 → Tile
  revealedSightTiles : RevealedSightTiles
  scoring : Option ScoringResult
  deriving DecidableEq

/-- Move log entry of the schema (moves table), without the database ids. -/
structure MoveLogEntry where
  turnNumber : Nat
  player : Player
  action : Action
  timestamp : Int
  deriving DecidableEq

def reserveCount (b : BoardState) : Player → Nat
  | .player1 => b.player1ReserveCount
  | .player2 => b.player2ReserveCount

def setReserve (b : BoardState) (p : Player) (n : Nat) : BoardState :=
  match p with
  | .player1 => { b with player1ReserveCount := n }
  | .player2 => { b with player2ReserveCount := n }

def revealPositions (b : BoardState) : Player → (Fin 5 → Bool)
  | .player1 => b.player1RevealPositions
  | .player2 => b.player2RevealPositions

def setRevealPositions (b : BoardState) (p : Player) (v : Fin 5 → Bool) : BoardState :=
  match p with
  | .player1 => { b with player1RevealPositions := v }
  | .player2 => { b with player2RevealPositions := v }

def timeLeft (tr : TimeBank) : Player → Int
  | .player1 => tr.player1
  | .player2 => tr.player2

def setBank (tr : TimeBank) (p : Player) (v : Int) : TimeBank :=
  match p with
  | .player1 => { tr with player1 := v }
  | .player2 => { tr with player2 := v }

def setRevealedTiles (r : RevealedSightTiles) (p : Player) (idx : Nat) : RevealedSightTiles :=
  if h : idx < 5 then
    match p with
    | .player1 => { r with player1 := Function.update r.player1 ⟨idx, h⟩ true }
    | .player2 => { r with player2 := Function.update r.player2 ⟨idx, h⟩ true }
  else r

/-- Range check for a lattice address: both coordinates below 5. -/
def posOk (pos : LatticePos) : Bool :=
  decide (pos.leftIndex < 5) && decide (pos.rightIndex < 5)

def latticeGet (L : Fin 5 × Fin 5 → Nat) (pos : LatticePos) : Nat :=
  if h : pos.leftIndex < 5 ∧ pos.rightIndex < 5 then
    L (⟨pos.leftIndex, h.1⟩, ⟨pos.rightIndex, h.2⟩)
  else 0

def latticeSet (L : Fin 5 × Fin 5 → Nat) (pos : LatticePos) (v : Nat) : Fin 5 × Fin 5 → Nat :=
  if h : pos.leftIndex < 5 ∧ pos.rightIndex < 5 then
    Function.update L (⟨pos.leftIndex, h.1⟩, ⟨pos.rightIndex, h.2⟩) v
  else L

def swapGet (S : Fin 2 × Fin 6 → Nat) (r c : Nat) : Nat :=
  if h : r < 2 ∧ c < 6 then S (⟨r, h.1⟩, ⟨c, h.2⟩) else 0

def swapSet (S : Fin 2 × Fin 6 → Nat) (r c : Nat) (v : Nat) : Fin 2 × Fin 6 → Nat :=
  if h : r < 2 ∧ c < 6 then Function.update S (⟨r, h.1⟩, ⟨c, h.2⟩) v else S

def revealGet (v : Fin 5 → Bool) (i : Nat) : Bool :=
  if h : i < 5 then v ⟨i, h⟩ else false

def revealSet (v : Fin 5 → Bool) (i : Nat) : Fin 5 → Bool :=
  if h : i < 5 then Function.update v ⟨i, h⟩ true else v

/-- Modelled from the spec: the Move Validator (section 4.1) is absent from
the repository source; only its data shapes are declared by the schema.
Phase and turn ownership are checked by submitAction before this body runs.
Every index referenced by the action is range-checked first and rejected
with unknownSlot when out of range. -/
def validateBody (b : BoardState) (p : Player) (a : Action) : Option RejectionReason :=
  match a with
  | .cast pos =>
    if posOk pos then
      if reserveCount b p = 0 then some .invalidStoneState
      else if latticeGet b.lattice pos ≠ 0 then some .targetOccupied
      else none
    else some .unknownSlot
  | .transfer fromPos toPos =>
    if posOk fromPos && posOk toPos then
      if latticeGet b.lattice fromPos ≠ playerNum p then some .invalidStoneState
      else if latticeGet b.lattice toPos ≠ 0 then some .targetOccupied
      else none
    else some .unknownSlot
  | .recover fromPos =>
    if posOk fromPos then
      if latticeGet b.lattice fromPos ≠ playerNum p then some .invalidStoneState
      else none
    else some .unknownSlot
  | .reveal target idx =>
    if decide (idx < 5) then
      if target = p then some .invalidStoneState
      else if reserveCount b p = 0 then some .invalidStoneState
      else if revealGet (revealPositions b target) idx then some .slotOccupied
      else none
    else some .unknownSlot
  | .swap r c own opp =>
    if decide (r < 2) && decide (c < 6) && posOk own && posOk opp then
      if reserveCount b p = 0 then some .invalidStoneState
      else if swapGet b.swapPositions r c ≠ 0 then some .slotOccupied
      else if latticeGet b.lattice own ≠ playerNum p then some .invalidStoneState
      else if latticeGet b.lattice opp = playerNum p then some .selfTargetInSwap
      else if latticeGet b.lattice opp = 0 then some .targetEmpty
      else none
    else some .unknownSlot
  | .endRound => none

/-- Modelled from the spec: the board effect of the State Applier
(section 4.2), which is absent from the repository source.  Assumes the
action has been validated. -/
def applyBoard (b : BoardState) (p : Player) (a : Action) : BoardState :=
  match a with
  | .cast pos =>
    let b1 := setReserve b p (reserveCount b p - 1)
    { b1 with lattice := latticeSet b1.lattice pos (playerNum p) }
  | .transfer fromPos toPos =>
    { b with lattice := latticeSet (latticeSet b.lattice fromPos 0) toPos (playerNum p) }
  | .recover fromPos =>
    let b1 := setReserve b p (reserveCount b p + 1)
    { b1 with lattice := latticeSet b1.lattice fromPos 0 }
  | .reveal target idx =>
    let b1 := setReserve b p (reserveCount b p - 1)
    setRevealPositions b1 target (revealSet (revealPositions b1 target) idx)
  | .swap r c own opp =>
    let v1 := latticeGet b.lattice own
    let v2 := latticeGet b.lattice opp
    let b1 := setReserve b p (reserveCount b p - 1)
    { b1 with lattice := latticeSet (latticeSet b1.lattice own v2) opp v1,
              swapPositions := swapSet b1.swapPositions r c (playerNum p) }
  | .endRound => b

/-- Modelled from the spec: charm value table of the Scoring Engine
(section 4.4): own-colour sun 15, flower 10, opponent-colour sun 5. -/
def charmValue : Player → Tile → Int
  | .player1, .blueSun => 15
  | .player1, .flower => 10
  | .player1, .brownSun => 5
  | .player2, .brownSun => 15
  | .player2, .flower => 10
  | .player2, .blueSun => 5
  | _, .voidTile => 0

/-- Modelled from the spec: a charm sits at the lattice cell whose left
index holds the charm in player1's ledger and whose right index holds it in
player2's ledger. -/
def charmLocation (t1 t2 : Fin 5 → Tile) (k : Tile) : Option (Fin 5 × Fin 5) :=
  match (List.finRange 5).find? (fun i => decide (t1 i = k)),
        (List.finRange 5).find? (fun j => decide (t2 j = k)) with
  | some lIdx, some rIdx => some (lIdx, rIdx)
  | _, _ => none

def charmCapturer (b : BoardState) (t1 t2 : Fin 5 → Tile) (k : Tile) : Option Player :=
  match charmLocation t1 t2 k with
  | some x =>
    match b.lattice x with
    | 1 => some .player1
    | 2 => some .player2
    | _ => none
  | none => none

/-- Modelled from the spec: the Scoring Engine (section 4.4), absent from the
repository source.  Stones standing in front of player2's rack were
sacrificed by player1 during reveal actions, so a void of player2 disclosed
there costs player1 one point, and symmetrically.  Winner: strictly higher
total, and on a tie the player who ended the round loses. -/
def computeScoring (b : BoardState) (t1 t2 : Fin 5 → Tile) (ender : Player) : ScoringResult :=
  let charms := [Tile.blueSun, Tile.brownSun, Tile.flower]
  let caps1 := charms.filter (fun k => decide (charmCapturer b t1 t2 k = some Player.player1))
  let caps2 := charms.filter (fun k => decide (charmCapturer b t1 t2 k = some Player.player2))
  let voids1 : Nat := ∑ i : Fin 5, if b.player2RevealPositions i ∧ t2 i = Tile.voidTile then 1 else 0
  let voids2 : Nat := ∑ i : Fin 5, if b.player1RevealPositions i ∧ t1 i = Tile.voidTile then 1 else 0
  let pts1 : Int := (caps1.map (charmValue .player1)).sum - (voids1 : Int)
  let pts2 : Int := (caps2.map (charmValue .player2)).sum - (voids2 : Int)
  let w := if pts1 = pts2 then opponent ender
           else if pts2 < pts1 then Player.player1 else Player.player2
  { capturedCharms1 := caps1, capturedCharms2 := caps2,
    revealedVoids1 := voids1, revealedVoids2 := voids2,
    points1 := pts1, points2 := pts2, winner := w }

/-- Modelled from the spec: end of round (voluntary or forced): the round
phase moves forward, the ender is recorded and scoring runs on the current
board. -/
def finishRound (s : RoundState) (p : Player) (t : Int) : RoundState :=
  { s with status := .completed, endedAt := some t, endedBy := some p,
           scoring := some (computeScoring s.boardState
             s.player1SightTiles s.player2SightTiles p) }

/-- Modelled from the spec: turn ownership flips and the turn number grows
after every accepted action other than endRound (section 4.3). -/
def advanceTurn (s : RoundState) : RoundState :=
  { s with currentTurnPlayer := opponent s.currentTurnPlayer,
           turnNumber := s.turnNumber + 1 }

/-- Modelled from the spec: the State Applier (section 4.2), absent from the
repository source.  Reveal additionally sets the revealed bitmask of the
target player. -/
def applyBody (s : RoundState) (p : Player) (a : Action) (t : Int) : RoundState :=
  match a with
  | .endRound => finishRound s p t
  | .reveal target idx =>
    advanceTurn { s with
      boardState := applyBoard s.boardState p (.reveal target idx),
      revealedSightTiles := setRevealedTiles s.revealedSightTiles target idx }
  | a1 => advanceTurn { s with boardState := applyBoard s.boardState p a1 }

def submitChecked (s : RoundState) (p : Player) (a : Action) (t : Int) :
    Option RejectionReason → Except RejectionReason (RoundState × MoveLogEntry)
  | some r => .error r
  | none => .ok (applyBody s p a t, ⟨s.turnNumber, p, a, t⟩)

/-- Modelled from the spec: the Turn and Clock Controller (section 4.3),
absent from the repository source.  On a timed round the elapsed time is
deducted; when the result is not positive the submitted action is discarded
and a forced endRound is recorded on the board exactly as it stood,
otherwise the increment is added back and turnStartedAt resets. -/
def submitTimed (s : RoundState) (p : Player) (a : Action) (t : Int) :
    Option TimeBank → Except RejectionReason (RoundState × MoveLogEntry)
  | some tr =>
    let newRem := timeLeft tr p - (t - s.turnStartedAt)
    if newRem ≤ 0 then
      let s1 : RoundState := { s with timeRemaining := some (setBank tr p newRem) }
      .ok (finishRound s1 p t, ⟨s.turnNumber, p, .endRound, t⟩)
    else
      let s1 : RoundState :=
        { s with timeRemaining := some (setBank tr p (newRem + s.incrementSeconds)),
                 turnStartedAt := t }
      submitChecked s1 p a t (validateBody s.boardState p a)
  | none => submitChecked s p a t (validateBody s.boardState p a)

/-- Modelled from the spec: submitAction (section 6): phase check, turn
check, clock handling, validation, application.  Rejections return the
reason and no new state. -/
def submitAction (s : RoundState) (p : Player) (a : Action) (t : Int) :
    Except RejectionReason (RoundState × MoveLogEntry) :=
  if s.status = RoundStatus.active then
    if s.currentTurnPlayer = p then
      submitTimed s p a t s.timeRemaining
    else .error .notYourTurn
  else .error .wrongRoundPhase

def stepAux (s : RoundState) :
    Except RejectionReason (RoundState × MoveLogEntry) → RoundState × Option MoveLogEntry
  | .ok r => (r.1, some r.2)
  | .error _ => (s, none)

/-- Outcome of one submission from the storage layer's point of view: a
successful call replaces the stored round and appends the log entry, a
rejected call stores nothing. -/
def stepRound (s : RoundState) (inp : Player × Action × Int) : RoundState × Option MoveLogEntry :=
  stepAux s (submitAction s inp.1 inp.2.1 inp.2.2)

/-- Live processing of a whole list of submissions: the final round state
together with the move log accumulated from the accepted ones. -/
def runRound (s : RoundState) : List (Player × Action × Int) → RoundState × List MoveLogEntry
  | [] => (s, [])
  | inp :: rest =>
    let r := runRound (stepRound s inp).1 rest
    (r.1, ((stepRound s inp).2).elim r.2 (fun e => e :: r.2))

def replayEntry (s : RoundState) (e : MoveLogEntry) : RoundState :=
  match submitAction s e.player e.action e.timestamp with
  | .ok r => r.1
  | .error _ => s

/-- Modelled from the spec: replay (section 6) folds the persisted move log
over the initial round state, re-submitting each recorded entry. -/
def replay (s : RoundState) (log : List MoveLogEntry) : RoundState :=
  log.foldl replayEntry s

/-- Modelled from the spec: a fresh round produced by startRound, entering
the Active phase: empty lattice, eight stones in each reserve, no
sacrificed stones, nothing revealed, the shuffled ledgers supplied by the
seeded shuffle. -/
def initialBoard : BoardState :=
  { lattice := fun _ => 0,
    player1ReserveCount := 8,
    player2ReserveCount := 8,
    player1RevealPositions := fun _ => false,
    player2RevealPositions := fun _ => false,
    swapPositions := fun _ => 0 }

def mkRound (t1 t2 : Fin 5 → Tile) (fp : Player) (bank : Option TimeBank)
    (inc t0 : Int) : RoundState :=
  { status := .active, firstPlayer := fp, currentTurnPlayer := fp,
    turnNumber := 1, turnStartedAt := t0, timeRemaining := bank,
    incrementSeconds := inc, startedAt := t0, endedAt := none, endedBy := none,
    boardState := initialBoard, player1SightTiles := t1, player2SightTiles := t2,
    revealedSightTiles := { player1 := fun _ => false, player2 := fun _ => false },
    scoring := none }

/-- Number of positions at which a finitely indexed table holds a given
value; used to count stones on the lattice, in swap slots and in reveal
slots. -/
def countEq {α β : Type} [Fintype α] [DecidableEq β] (f : α → β) (n : β) : Nat :=
  ∑ x : α, if f x = n then 1 else 0

/-- Stones of player q accounted for by a board: reserve, on the lattice,
sacrificed into the reveal slots in front of the opponent, and sacrificed
into swap slots. -/
def boardTotal (b : BoardState) (q : Player) : Nat :=
  reserveCount b q + countEq b.lattice (playerNum q)
    + countEq (revealPositions b (opponent q)) true
    + countEq b.swapPositions (playerNum q)

lemma opponent_opponent (p : Player) : opponent (opponent p) = p := by
  cases p <;> rfl

lemma opponent_ne (p : Player) : opponent p ≠ p := by
  cases p <;> simp [opponent]

lemma playerNum_ne_zero (p : Player) : playerNum p ≠ 0 := by
  cases p <;> simp [playerNum]

lemma playerNum_inj (p q : Player) (h : p ≠ q) : playerNum p ≠ playerNum q := by
  cases p <;> cases q <;> simp_all [playerNum]

lemma countEq_update {α β : Type} [Fintype α] [DecidableEq α] [DecidableEq β]
    (f : α → β) (y : α) (v : β) (n : β) :
    countEq (Function.update f y v) n + (if f y = n then 1 else 0)
      = countEq f n + (if v = n then 1 else 0) := by
  classical
  have h1 : ∀ x, (if Function.update f y v x = n then (1 : Nat) else 0)
      = Function.update (fun z => if f z = n then (1 : Nat) else 0) y
          (if v = n then 1 else 0) x := by
    intro x
    by_cases hx : x = y
    · subst hx; simp
    · simp [Function.update_noteq hx]
  unfold countEq
  rw [Finset.sum_congr rfl (fun x _ => h1 x)]
  rw [Finset.sum_update_of_mem (Finset.mem_univ y)]
  rw [Finset.sdiff_singleton_eq_erase]
  rw [← Finset.add_sum_erase Finset.univ
    (fun z => if f z = n then (1 : Nat) else 0) (Finset.mem_univ y)]
  omega

@[simp] lemma setReserve_lattice (b : BoardState) (p : Player) (n : Nat) :
    (setReserve b p n).lattice = b.lattice := by cases p <;> rfl

@[simp] lemma setReserve_swapPositions (b : BoardState) (p : Player) (n : Nat) :
    (setReserve b p n).swapPositions = b.swapPositions := by cases p <;> rfl

@[simp] lemma setRevealPositions_lattice (b : BoardState) (p : Player) (v : Fin 5 → Bool) :
    (setRevealPositions b p v).lattice = b.lattice := by cases p <;> rfl

@[simp] lemma setRevealPositions_swapPositions (b : BoardState) (p : Player) (v : Fin 5 → Bool) :
    (setRevealPositions b p v).swapPositions = b.swapPositions := by cases p <;> rfl

@[simp] lemma reserveCount_withLattice (b : BoardState) (L : Fin 5 × Fin 5 → Nat) (q : Player) :
    reserveCount { b with lattice := L } q = reserveCount b q := by cases q <;> rfl

@[simp] lemma reserveCount_withLatticeSwap (b : BoardState) (L : Fin 5 × Fin 5 → Nat)
    (S : Fin 2 × Fin 6 → Nat) (q : Player) :
    reserveCount { b with lattice := L, swapPositions := S } q = reserveCount b q := by
  cases q <;> rfl

@[simp] lemma reserveCount_setReserve (b : BoardState) (p : Player) (n : Nat) (q : Player) :
    reserveCount (setReserve b p n) q = if q = p then n else reserveCount b q := by
  cases p <;> cases q <;> simp [reserveCount, setReserve]

@[simp] lemma reserveCount_setRevealPositions (b : BoardState) (p : Player) (v : Fin 5 → Bool)
    (q : Player) : reserveCount (setRevealPositions b p v) q = reserveCount b q := by
  cases p <;> cases q <;> rfl

@[simp] lemma revealPositions_withLattice (b : BoardState) (L : Fin 5 × Fin 5 → Nat) (q : Player) :
    revealPositions { b with lattice := L } q = revealPositions b q := by cases q <;> rfl

@[simp] lemma revealPositions_withLatticeSwap (b : BoardState) (L : Fin 5 × Fin 5 → Nat)
    (S : Fin 2 × Fin 6 → Nat) (q : Player) :
    revealPositions { b with lattice := L, swapPositions := S } q = revealPositions b q := by
  cases q <;> rfl

@[simp] lemma revealPositions_setReserve (b : BoardState) (p : Player) (n : Nat) (q : Player) :
    revealPositions (setReserve b p n) q = revealPositions b q := by cases p <;> cases q <;> rfl

@[simp] lemma revealPositions_setRevealPositions (b : BoardState) (p : Player) (v : Fin 5 → Bool)
    (q : Player) :
    revealPositions (setRevealPositions b p v) q = if q = p then v else revealPositions b q := by
  cases p <;> cases q <;> simp [revealPositions, setRevealPositions]

lemma posOk_iff (pos : LatticePos) :
    posOk pos = true ↔ pos.leftIndex < 5 ∧ pos.rightIndex < 5 := by simp [posOk]

lemma update_read_other {α β : Type} [DecidableEq α] (f : α → β) (x1 x2 : α) :
    Function.update f x1 (f x2) x2 = f x2 := by
  by_cases h : x2 = x1
  · subst h; simp
  · simp [Function.update_noteq h]

lemma countEq_latticeSet (L : Fin 5 × Fin 5 → Nat) (pos : LatticePos) (v n : Nat)
    (h : pos.leftIndex < 5 ∧ pos.rightIndex < 5) :
    countEq (latticeSet L pos v) n + (if latticeGet L pos = n then 1 else 0)
      = countEq L n + (if v = n then 1 else 0) := by
  rw [latticeSet, dif_pos h, latticeGet, dif_pos h]
  exact countEq_update L _ v n

lemma countEq_swapSet (S : Fin 2 × Fin 6 → Nat) (r c v n : Nat) (h : r < 2 ∧ c < 6) :
    countEq (swapSet S r c v) n + (if swapGet S r c = n then 1 else 0)
      = countEq S n + (if v = n then 1 else 0) := by
  rw [swapSet, dif_pos h, swapGet, dif_pos h]
  exact countEq_update S _ v n

lemma countEq_revealSet (v : Fin 5 → Bool) (i : Nat) (h : i < 5) :
    countEq (revealSet v i) true + (if revealGet v i = true then 1 else 0)
      = countEq v true + 1 := by
  rw [revealSet, dif_pos h, revealGet, dif_pos h]
  simpa using countEq_update v ⟨i, h⟩ true true

lemma latticeGet_latticeSet_val (L : Fin 5 × Fin 5 → Nat) (p1 p2 : LatticePos)
    (h1 : p1.leftIndex < 5 ∧ p1.rightIndex < 5) (h2 : p2.leftIndex < 5 ∧ p2.rightIndex < 5) :
    latticeGet (latticeSet L p1 (latticeGet L p2)) p2 = latticeGet L p2 := by
  unfold latticeGet latticeSet
  simp only [dif_pos h1, dif_pos h2]
  exact update_read_other L _ _

lemma applyBody_boardState (s : RoundState) (p : Player) (a : Action) (t : Int) :
    (applyBody s p a t).boardState = applyBoard s.boardState p a := by
  cases a <;> rfl

/-- Validated actions conserve each player's stone total across reserve,
lattice, reveal slots and swap slots. -/
lemma boardTotal_applyBoard (b : BoardState) (p q : Player) (a : Action)
    (hv : validateBody b p a = none) :
    boardTotal (applyBoard b p a) q = boardTotal b q := by
  cases a with
  | cast pos =>
    simp only [validateBody] at hv
    split_ifs at hv with hbnd hres hocc
    all_goals try exact Option.noConfusion hv
    obtain ⟨hl, hr⟩ := (posOk_iff pos).mp hbnd
    have h0 : latticeGet b.lattice pos = 0 := not_not.mp hocc
    have hc1 := countEq_latticeSet b.lattice pos (playerNum p) 1 ⟨hl, hr⟩
    have hc2 := countEq_latticeSet b.lattice pos (playerNum p) 2 ⟨hl, hr⟩
    cases p <;> cases q <;>
      simp_all [boardTotal, applyBoard, reserveCount, setReserve, revealPositions,
        playerNum, opponent] <;>
      omega
  | transfer fromPos toPos =>
    simp only [validateBody] at hv
    split_ifs at hv with hbnd hown hto
    all_goals try exact Option.noConfusion hv
    rw [Bool.and_eq_true] at hbnd
    obtain ⟨hfl, hfr⟩ := (posOk_iff fromPos).mp hbnd.1
    obtain ⟨htl, htr⟩ := (posOk_iff toPos).mp hbnd.2
    have hovn : latticeGet b.lattice fromPos = playerNum p := not_not.mp hown
    have h0 : latticeGet b.lattice toPos = 0 := not_not.mp hto
    have hstill : latticeGet (latticeSet b.lattice fromPos 0) toPos = 0 := by
      have h := latticeGet_latticeSet_val b.lattice fromPos toPos ⟨hfl, hfr⟩ ⟨htl, htr⟩
      rw [h0] at h
      exact h
    have hcA1 := countEq_latticeSet b.lattice fromPos 0 1 ⟨hfl, hfr⟩
    have hcA2 := countEq_latticeSet b.lattice fromPos 0 2 ⟨hfl, hfr⟩
    have hcB1 := countEq_latticeSet (latticeSet b.lattice fromPos 0) toPos
      (playerNum p) 1 ⟨htl, htr⟩
    have hcB2 := countEq_latticeSet (latticeSet b.lattice fromPos 0) toPos
      (playerNum p) 2 ⟨htl, htr⟩
    cases p <;> cases q <;>
      simp_all [boardTotal, applyBoard, reserveCount, setReserve, revealPositions,
        playerNum, opponent] <;>
      omega
  | recover fromPos =>
    simp only [validateBody] at hv
    split_ifs at hv with hbnd hown
    all_goals try exact Option.noConfusion hv
    obtain ⟨hfl, hfr⟩ := (posOk_iff fromPos).mp hbnd
    have hovn : latticeGet b.lattice fromPos = playerNum p := not_not.mp hown
    have hc1 := countEq_latticeSet b.lattice fromPos 0 1 ⟨hfl, hfr⟩
    have hc2 := countEq_latticeSet b.lattice fromPos 0 2 ⟨hfl, hfr⟩
    cases p <;> cases q <;>
      simp_all [boardTotal, applyBoard, reserveCount, setReserve, revealPositions,
        playerNum, opponent] <;>
      omega
  | reveal target idx =>
    simp only [validateBody] at hv
    split_ifs at hv with hbnd htp hres hslot
    all_goals try exact Option.noConfusion hv
    have hidx : idx < 5 := of_decide_eq_true hbnd
    have hslot2 : revealGet (revealPositions b target) idx = false := by
      simpa using hslot
    have htarget : target = opponent p := by
      cases target <;> cases p <;> simp_all [opponent]
    subst htarget
    have hc := countEq_revealSet (revealPositions b (opponent p)) idx hidx
    rw [hslot2, if_neg (by simp)] at hc
    cases p <;> cases q <;>
      simp_all [boardTotal, applyBody, applyBoard, reserveCount, setReserve,
        revealPositions, setRevealPositions, playerNum, opponent] <;>
      omega
  | swap r c own opp =>
    simp only [validateBody] at hv
    split_ifs at hv with hbnd hres hslot hown hself hempty
    all_goals try exact Option.noConfusion hv
    simp only [Bool.and_eq_true, decide_eq_true_eq] at hbnd
    obtain ⟨⟨⟨hr2, hc6⟩, hpo⟩, hpp⟩ := hbnd
    obtain ⟨hol, hor⟩ := (posOk_iff own).mp hpo
    obtain ⟨hpl, hpr⟩ := (posOk_iff opp).mp hpp
    have hslot0 : swapGet b.swapPositions r c = 0 := not_not.mp hslot
    have hovn : latticeGet b.lattice own = playerNum p := not_not.mp hown
    have hstill : latticeGet (latticeSet b.lattice own (latticeGet b.lattice opp)) opp
        = latticeGet b.lattice opp :=
      latticeGet_latticeSet_val b.lattice own opp ⟨hol, hor⟩ ⟨hpl, hpr⟩
    have hcA1 := countEq_latticeSet b.lattice own (latticeGet b.lattice opp) 1 ⟨hol, hor⟩
    have hcA2 := countEq_latticeSet b.lattice own (latticeGet b.lattice opp) 2 ⟨hol, hor⟩
    have hcB1 := countEq_latticeSet (latticeSet b.lattice own (latticeGet b.lattice opp)) opp
      (latticeGet b.lattice own) 1 ⟨hpl, hpr⟩
    have hcB2 := countEq_latticeSet (latticeSet b.lattice own (latticeGet b.lattice opp)) opp
      (latticeGet b.lattice own) 2 ⟨hpl, hpr⟩
    have hcS1 := countEq_swapSet b.swapPositions r c (playerNum p) 1 ⟨hr2, hc6⟩
    have hcS2 := countEq_swapSet b.swapPositions r c (playerNum p) 2 ⟨hr2, hc6⟩
    by_cases hY : latticeGet b.lattice opp = playerNum (opponent p) <;>
      cases p <;> cases q <;>
      simp_all [boardTotal, applyBoard, reserveCount, setReserve, revealPositions,
        playerNum, opponent] <;>
      omega
  | endRound => rfl

@[simp] lemma finishRound_boardState (s : RoundState) (p : Player) (t : Int) :
    (finishRound s p t).boardState = s.boardState := rfl

@[simp] lemma applyBody_p1Tiles (s : RoundState) (p : Player) (a : Action) (t : Int) :
    (applyBody s p a t).player1SightTiles = s.player1SightTiles := by cases a <;> rfl

@[simp] lemma applyBody_p2Tiles (s : RoundState) (p : Player) (a : Action) (t : Int) :
    (applyBody s p a t).player2SightTiles = s.player2SightTiles := by cases a <;> rfl

/-- Dissection of a successful submitAction: either the clock expired and the
result is a forced endRound of a clock-updated copy of the input state, or
the action validated and was applied to a clock-updated copy; in both cases
that copy has the board and ledgers of the input state. -/
lemma submit_ok (s : RoundState) (p : Player) (a : Action) (t : Int)
    (s1 : RoundState) (e : MoveLogEntry)
    (h : submitAction s p a t = .ok (s1, e)) :
    ∃ s0 : RoundState,
      s0.boardState = s.boardState ∧
      s0.player1SightTiles = s.player1SightTiles ∧
      s0.player2SightTiles = s.player2SightTiles ∧
      ((s1 = finishRound s0 p t ∧ e = ⟨s.turnNumber, p, .endRound, t⟩) ∨
        (validateBody s.boardState p a = none ∧ s1 = applyBody s0 p a t ∧
          e = ⟨s.turnNumber, p, a, t⟩)) := by
  by_cases h1 : s.status = RoundStatus.active
  case neg =>
    rw [submitAction, if_neg h1] at h
    exact Except.noConfusion h
  by_cases h2 : s.currentTurnPlayer = p
  case neg =>
    rw [submitAction, if_pos h1, if_neg h2] at h
    exact Except.noConfusion h
  rw [submitAction, if_pos h1, if_pos h2] at h
  cases htr : s.timeRemaining with
  | none =>
    rw [htr] at h
    simp only [submitTimed] at h
    cases hval : validateBody s.boardState p a with
    | some r =>
      rw [hval] at h
      simp only [submitChecked] at h
      exact Except.noConfusion h
    | none =>
      rw [hval] at h
      simp only [submitChecked, Except.ok.injEq, Prod.mk.injEq] at h
      obtain ⟨hs1, he⟩ := h
      exact ⟨s, rfl, rfl, rfl, Or.inr ⟨rfl, hs1.symm, he.symm⟩⟩
  | some tr =>
    rw [htr] at h
    simp only [submitTimed] at h
    by_cases hle : timeLeft tr p - (t - s.turnStartedAt) ≤ 0
    · rw [if_pos hle] at h
      simp only [Except.ok.injEq, Prod.mk.injEq] at h
      obtain ⟨hs1, he⟩ := h
      exact ⟨{ s with timeRemaining := some (setBank tr p (timeLeft tr p - (t - s.turnStartedAt))) }, rfl, rfl, rfl, Or.inl ⟨hs1.symm, he.symm⟩⟩
    · rw [if_neg hle] at h
      cases hval : validateBody s.boardState p a with
      | some r =>
        rw [hval] at h
        simp only [submitChecked] at h
        exact Except.noConfusion h
      | none =>
        rw [hval] at h
        simp only [submitChecked, Except.ok.injEq, Prod.mk.injEq] at h
        obtain ⟨hs1, he⟩ := h
        exact ⟨{ s with timeRemaining := some (setBank tr p (timeLeft tr p - (t - s.turnStartedAt) + s.incrementSeconds)), turnStartedAt := t }, rfl, rfl, rfl, Or.inr ⟨rfl, hs1.symm, he.symm⟩⟩

/-- Re-submitting the recorded log entry from the same pre-state reproduces
exactly the same successful outcome: the entry carries everything the
engine consumed. -/
lemma submit_replay (s s1 : RoundState) (p : Player) (a : Action) (t : Int)
    (e : MoveLogEntry) (h : submitAction s p a t = .ok (s1, e)) :
    submitAction s e.player e.action e.timestamp = .ok (s1, e) := by
  by_cases h1 : s.status = RoundStatus.active
  case neg =>
    rw [submitAction, if_neg h1] at h
    exact Except.noConfusion h
  by_cases h2 : s.currentTurnPlayer = p
  case neg =>
    rw [submitAction, if_pos h1, if_neg h2] at h
    exact Except.noConfusion h
  rw [submitAction, if_pos h1, if_pos h2] at h
  cases htr : s.timeRemaining with
  | none =>
    rw [htr] at h
    simp only [submitTimed] at h
    cases hval : validateBody s.boardState p a with
    | some r =>
      rw [hval] at h
      simp only [submitChecked] at h
      exact Except.noConfusion h
    | none =>
      rw [hval] at h
      simp only [submitChecked, Except.ok.injEq, Prod.mk.injEq] at h
      obtain ⟨hs1, he⟩ := h
      subst he
      show submitAction s p a t = Except.ok (s1, (⟨s.turnNumber, p, a, t⟩ : MoveLogEntry))
      rw [submitAction, if_pos h1, if_pos h2, htr]
      simp only [submitTimed]
      rw [hval]
      simp only [submitChecked]
      rw [hs1]
  | some tr =>
    rw [htr] at h
    simp only [submitTimed] at h
    by_cases hle : timeLeft tr p - (t - s.turnStartedAt) ≤ 0
    · rw [if_pos hle] at h
      simp only [Except.ok.injEq, Prod.mk.injEq] at h
      obtain ⟨hs1, he⟩ := h
      subst he
      show submitAction s p Action.endRound t
        = Except.ok (s1, (⟨s.turnNumber, p, Action.endRound, t⟩ : MoveLogEntry))
      rw [submitAction, if_pos h1, if_pos h2, htr]
      simp only [submitTimed]
      rw [if_pos hle, hs1]
    · rw [if_neg hle] at h
      cases hval : validateBody s.boardState p a with
      | some r =>
        rw [hval] at h
        simp only [submitChecked] at h
        exact Except.noConfusion h
      | none =>
        rw [hval] at h
        simp only [submitChecked, Except.ok.injEq, Prod.mk.injEq] at h
        obtain ⟨hs1, he⟩ := h
        subst he
        show submitAction s p a t = Except.ok (s1, (⟨s.turnNumber, p, a, t⟩ : MoveLogEntry))
        rw [submitAction, if_pos h1, if_pos h2, htr]
        simp only [submitTimed]
        rw [if_neg hle, hval]
        simp only [submitChecked]
        rw [hs1]

lemma boardTotal_submit (s s1 : RoundState) (p : Player) (a : Action) (t : Int)
    (e : MoveLogEntry) (q : Player) (h : submitAction s p a t = .ok (s1, e)) :
    boardTotal s1.boardState q = boardTotal s.boardState q := by
  obtain ⟨s0, hb, _, _, hcase⟩ := submit_ok s p a t s1 e h
  rcases hcase with ⟨hfin, _⟩ | ⟨hval, happ, _⟩
  · rw [hfin, finishRound_boardState, hb]
  · rw [happ, applyBody_boardState, hb]
    exact boardTotal_applyBoard s.boardState p q a hval

lemma sightTiles_submit (s s1 : RoundState) (p : Player) (a : Action) (t : Int)
    (e : MoveLogEntry) (h : submitAction s p a t = .ok (s1, e)) :
    s1.player1SightTiles = s.player1SightTiles ∧
    s1.player2SightTiles = s.player2SightTiles := by
  obtain ⟨s0, _, ht1, ht2, hcase⟩ := submit_ok s p a t s1 e h
  rcases hcase with ⟨hfin, _⟩ | ⟨_, happ, _⟩
  · rw [hfin]
    exact ⟨ht1, ht2⟩
  · rw [happ, applyBody_p1Tiles, applyBody_p2Tiles]
    exact ⟨ht1, ht2⟩

lemma boardTotal_runRound (s : RoundState) (inputs : List (Player × Action × Int)) (q : Player) :
    boardTotal (runRound s inputs).1.boardState q = boardTotal s.boardState q := by
  induction inputs generalizing s with
  | nil => rfl
  | cons inp rest ih =>
    cases hsub : submitAction s inp.1 inp.2.1 inp.2.2 with
    | error r =>
      have hstep : stepRound s inp = (s, none) := by simp [stepRound, stepAux, hsub]
      simp only [runRound, hstep]
      exact ih s
    | ok pr =>
      obtain ⟨s1, e⟩ := pr
      have hstep : stepRound s inp = (s1, some e) := by simp [stepRound, stepAux, hsub]
      simp only [runRound, hstep]
      rw [ih s1]
      exact boardTotal_submit s s1 inp.1 inp.2.1 inp.2.2 e q hsub

lemma sightTiles_runRound (s : RoundState) (inputs : List (Player × Action × Int)) :
    (runRound s inputs).1.player1SightTiles = s.player1SightTiles ∧
    (runRound s inputs).1.player2SightTiles = s.player2SightTiles := by
  induction inputs generalizing s with
  | nil => exact ⟨rfl, rfl⟩
  | cons inp rest ih =>
    cases hsub : submitAction s inp.1 inp.2.1 inp.2.2 with
    | error r =>
      have hstep : stepRound s inp = (s, none) := by simp [stepRound, stepAux, hsub]
      simp only [runRound, hstep]
      exact ih s
    | ok pr =>
      obtain ⟨s1, e⟩ := pr
      have hstep : stepRound s inp = (s1, some e) := by simp [stepRound, stepAux, hsub]
      have hp := sightTiles_submit s s1 inp.1 inp.2.1 inp.2.2 e hsub
      simp only [runRound, hstep]
      obtain ⟨ih1, ih2⟩ := ih s1
      exact ⟨ih1.trans hp.1, ih2.trans hp.2⟩

/-- C1: replay determinism.  For every initial round state and every list of
live submissions, replaying the accumulated move log from the initial state
reproduces the live-computed final state exactly.  The persisted log entries
record no stone ids, and neither does the persisted board state, so the
logged information suffices. -/
theorem replay_determinism (s0 : RoundState) (inputs : List (Player × Action × Int)) :
    replay s0 (runRound s0 inputs).2 = (runRound s0 inputs).1 := by
  induction inputs generalizing s0 with
  | nil => rfl
  | cons inp rest ih =>
    cases hsub : submitAction s0 inp.1 inp.2.1 inp.2.2 with
    | error r =>
      have hstep : stepRound s0 inp = (s0, none) := by simp [stepRound, stepAux, hsub]
      simp only [runRound, hstep, Option.elim]
      exact ih s0
    | ok pr =>
      obtain ⟨s1, e⟩ := pr
      have hstep : stepRound s0 inp = (s1, some e) := by simp [stepRound, stepAux, hsub]
      have hre : replayEntry s0 e = s1 := by
        have h2 := submit_replay s0 s1 inp.1 inp.2.1 inp.2.2 e hsub
        simp [replayEntry, h2]
      simp only [runRound, hstep, Option.elim]
      simp only [replay, List.foldl]
      rw [hre]
      exact ih s1

/-- C3: stone conservation.  In every state reachable from a fresh round by
submitting any sequence of actions, each player's stones in reserve, on the
lattice, and sacrificed into reveal or swap slots total exactly 8. -/
theorem stone_conservation (t1 t2 : Fin 5 → Tile) (fp : Player) (bank : Option TimeBank)
    (inc t0 : Int) (inputs : List (Player × Action × Int)) (q : Player) :
    boardTotal (runRound (mkRound t1 t2 fp bank inc t0) inputs).1.boardState q = 8 := by
  rw [boardTotal_runRound]
  show boardTotal initialBoard q = 8
  cases q <;> decide

/-- Ledger well-formedness: exactly one blueSun, one brownSun, one flower and
two voids across the five sight-line indices. -/
def ledgerOk (v : Fin 5 → Tile) : Prop :=
  countEq v Tile.blueSun = 1 ∧ countEq v Tile.brownSun = 1 ∧
  countEq v Tile.flower = 1 ∧ countEq v Tile.voidTile = 2

instance ledgerOkDecidable (v : Fin 5 → Tile) : Decidable (ledgerOk v) := by
  unfold ledgerOk
  infer_instance

/-- C8: each player's hidden tile ledger is fixed at round setup and is
unchanged by every subsequent operation; in particular it stays a
bijection onto the multiset with one blueSun, one brownSun, one flower and
two voids whenever the shuffle produced one. -/
theorem ledger_fixed (t1 t2 : Fin 5 → Tile) (fp : Player) (bank : Option TimeBank)
    (inc t0 : Int) (inputs : List (Player × Action × Int)) :
    (runRound (mkRound t1 t2 fp bank inc t0) inputs).1.player1SightTiles = t1 ∧
    (runRound (mkRound t1 t2 fp bank inc t0) inputs).1.player2SightTiles = t2 ∧
    (ledgerOk t1 →
      ledgerOk ((runRound (mkRound t1 t2 fp bank inc t0) inputs).1.player1SightTiles)) ∧
    (ledgerOk t2 →
      ledgerOk ((runRound (mkRound t1 t2 fp bank inc t0) inputs).1.player2SightTiles)) := by
  obtain ⟨h1, h2⟩ := sightTiles_runRound (mkRound t1 t2 fp bank inc t0) inputs
  refine ⟨h1, h2, ?_, ?_⟩
  · intro h
    rw [h1]
    exact h
  · intro h
    rw [h2]
    exact h

/-- Example ledgers of the worked scoring example in the rules text. -/
def exT1 : Fin 5 → Tile := fun i =>
  [Tile.flower, Tile.voidTile, Tile.blueSun, Tile.voidTile, Tile.brownSun].get i

def exT2 : Fin 5 → Tile := fun i =>
  [Tile.brownSun, Tile.blueSun, Tile.voidTile, Tile.flower, Tile.voidTile].get i

/-- Witness for C8 at a concrete ledger and the empty move list. -/
theorem ledger_fixed_witness :
    ledgerOk ((runRound (mkRound exT1 exT2 Player.player1 none 0 0) []).1.player1SightTiles) :=
  (ledger_fixed exT1 exT2 Player.player1 none 0 0 []).2.2.1 (by decide)

/-- C6: a rejected submission leaves the stored state untouched and appends
no log entry, and resubmitting the same rejected action any number of times
keeps the state at the original value on every call. -/
theorem rejection_idempotent (s : RoundState) (p : Player) (a : Action) (t : Int)
    (r : RejectionReason) (h : submitAction s p a t = .error r) :
    stepRound s (p, a, t) = (s, none) ∧
    stepRound (stepRound s (p, a, t)).1 (p, a, t) = (s, none) := by
  have h1 : stepRound s (p, a, t) = (s, none) := by simp [stepRound, stepAux, h]
  refine ⟨h1, ?_⟩
  rw [h1]
  exact h1

def exRound : RoundState := mkRound exT1 exT2 Player.player1 none 0 0

def exDone : RoundState := { exRound with status := RoundStatus.completed }

/-- Witness for C6: submitting to a completed round is rejected twice over
without any state change. -/
theorem rejection_idempotent_witness :
    stepRound exDone (Player.player1, Action.endRound, 5) = (exDone, none) ∧
    stepRound (stepRound exDone (Player.player1, Action.endRound, 5)).1
      (Player.player1, Action.endRound, 5) = (exDone, none) :=
  rejection_idempotent exDone Player.player1 Action.endRound 5
    RejectionReason.wrongRoundPhase rfl

@[simp] lemma applyBody_timeRemaining (s : RoundState) (p : Player) (a : Action) (t : Int) :
    (applyBody s p a t).timeRemaining = s.timeRemaining := by cases a <;> rfl

@[simp] lemma applyBody_turnStartedAt (s : RoundState) (p : Player) (a : Action) (t : Int) :
    (applyBody s p a t).turnStartedAt = s.turnStartedAt := by cases a <;> rfl

/-- Board of the worked scoring example: a player2 stone on (2,1), a player1
stone on (0,3), cell (4,0) empty, and one stone standing in front of
player2's sight line 2 (a void), sacrificed by player1 in a reveal. -/
def exLattice : Fin 5 × Fin 5 → Nat := fun x =>
  if x = ((2 : Fin 5), (1 : Fin 5)) then 2
  else if x = ((0 : Fin 5), (3 : Fin 5)) then 1
  else 0

def exBoard : BoardState :=
  { lattice := exLattice,
    player1ReserveCount := 5,
    player2ReserveCount := 6,
    player1RevealPositions := fun _ => false,
    player2RevealPositions := fun i => decide (i = (2 : Fin 5)),
    swapPositions := fun _ => 0 }

/-- C2: the worked example of the rules text: with the given ledgers and
board, player1 scores 10 for the flower minus 1 for the void they revealed,
player2 scores 5 for the blue sun, and player1 wins the round, whoever
ended it. -/
theorem scoring_worked_example (ender : Player) :
    (computeScoring exBoard exT1 exT2 ender).points1 = 9 ∧
    (computeScoring exBoard exT1 exT2 ender).points2 = 5 ∧
    (computeScoring exBoard exT1 exT2 ender).winner = Player.player1 := by
  cases ender <;> refine ⟨?_, ?_, ?_⟩ <;> decide

/-- C5: the winner of a scored round is the player with the strictly higher
total; on an exact tie the player who triggered endRound loses and the
opponent is declared winner.  The winner field of the scoring record has no
draw value, so a round winner is always declared. -/
theorem winner_determination (b : BoardState) (t1 t2 : Fin 5 → Tile) (ender : Player) :
    ((computeScoring b t1 t2 ender).points2 < (computeScoring b t1 t2 ender).points1 →
      (computeScoring b t1 t2 ender).winner = Player.player1) ∧
    ((computeScoring b t1 t2 ender).points1 < (computeScoring b t1 t2 ender).points2 →
      (computeScoring b t1 t2 ender).winner = Player.player2) ∧
    ((computeScoring b t1 t2 ender).points1 = (computeScoring b t1 t2 ender).points2 →
      (computeScoring b t1 t2 ender).winner = opponent ender) := by
  unfold computeScoring
  dsimp only
  refine ⟨?_, ?_, ?_⟩ <;> intro h
  · rw [if_neg (by omega), if_pos h]
  · rw [if_neg (by omega), if_neg (by omega)]
  · rw [if_pos h]

/-- Witness for C5 at a tie: on an empty board nobody captures anything, the
totals tie at zero, and the ender (player1) loses. -/
theorem winner_determination_witness :
    (computeScoring initialBoard exT1 exT2 Player.player1).winner = Player.player2 :=
  (winner_determination initialBoard exT1 exT2 Player.player1).2.2 (by decide)

/-- C4: clock handling of submitAction.  With the round active and the
acting player on turn: on a timed round whose deducted remainder is not
positive, the submitted action is discarded and a forced endRound is
recorded, with scoring computed on the board exactly as it stood; when time
remains, the increment is added back and turnStartedAt resets to the
submission time; on an untimed round no time accounting happens and no
forced endRound occurs. -/
theorem timed_clock_behavior (s : RoundState) (p : Player) (a : Action) (t : Int)
    (hact : s.status = RoundStatus.active) (hturn : s.currentTurnPlayer = p) :
    (∀ tr : TimeBank, s.timeRemaining = some tr →
      (timeLeft tr p - (t - s.turnStartedAt) ≤ 0 →
        ∃ s1 : RoundState,
          submitAction s p a t = .ok (s1, ⟨s.turnNumber, p, Action.endRound, t⟩) ∧
          s1.boardState = s.boardState ∧
          s1.status = RoundStatus.completed ∧
          s1.endedBy = some p ∧
          s1.scoring = some (computeScoring s.boardState s.player1SightTiles
            s.player2SightTiles p)) ∧
      (0 < timeLeft tr p - (t - s.turnStartedAt) →
        validateBody s.boardState p a = none →
        ∃ s1 : RoundState,
          submitAction s p a t = .ok (s1, ⟨s.turnNumber, p, a, t⟩) ∧
          s1.timeRemaining
            = some (setBank tr p (timeLeft tr p - (t - s.turnStartedAt) + s.incrementSeconds)) ∧
          s1.turnStartedAt = t)) ∧
    (s.timeRemaining = none →
      validateBody s.boardState p a = none →
      ∃ s1 : RoundState,
        submitAction s p a t = .ok (s1, ⟨s.turnNumber, p, a, t⟩) ∧
        s1.timeRemaining = none ∧
        s1.turnStartedAt = s.turnStartedAt) := by
  refine ⟨fun tr htr => ⟨fun hle => ?_, fun hpos hval => ?_⟩, fun htr hval => ?_⟩
  · refine ⟨finishRound { s with timeRemaining := some (setBank tr p (timeLeft tr p - (t - s.turnStartedAt))) } p t, ?_, rfl, rfl, rfl, rfl⟩
    rw [submitAction, if_pos hact, if_pos hturn, htr]
    simp only [submitTimed]
    rw [if_pos hle]
  · refine ⟨applyBody { s with timeRemaining := some (setBank tr p (timeLeft tr p - (t - s.turnStartedAt) + s.incrementSeconds)), turnStartedAt := t } p a t, ?_, ?_, ?_⟩
    · rw [submitAction, if_pos hact, if_pos hturn, htr]
      simp only [submitTimed]
      rw [if_neg (by omega), hval]
      simp only [submitChecked]
    · rw [applyBody_timeRemaining]
    · rw [applyBody_turnStartedAt]
  · refine ⟨applyBody s p a t, ?_, ?_, ?_⟩
    · rw [submitAction, if_pos hact, if_pos hturn, htr]
      simp only [submitTimed]
      rw [hval]
      simp only [submitChecked]
    · rw [applyBody_timeRemaining, htr]
    · rw [applyBody_turnStartedAt]

def exBank : TimeBank := { player1 := 10, player2 := 10 }

def exTimed : RoundState := mkRound exT1 exT2 Player.player1 (some exBank) 5 0

/-- Witness for C4: a cast submitted 100 seconds into a 10 second budget is
replaced by a forced endRound scored on the untouched board. -/
theorem timed_clock_behavior_witness :
    ∃ s1 : RoundState,
      submitAction exTimed Player.player1 (Action.cast ⟨0, 0⟩) 100
        = .ok (s1, ⟨exTimed.turnNumber, Player.player1, Action.endRound, 100⟩) ∧
      s1.boardState = exTimed.boardState ∧
      s1.status = RoundStatus.completed ∧
      s1.endedBy = some Player.player1 ∧
      s1.scoring = some (computeScoring exTimed.boardState exTimed.player1SightTiles
        exTimed.player2SightTiles Player.player1) :=
  ((timed_clock_behavior exTimed Player.player1 (Action.cast ⟨0, 0⟩) 100 rfl rfl).1
    exBank rfl).1 (by decide)

lemma bnot_true {b : Bool} (h : (!b) = true) : b = false := by
  cases b <;> simp_all

/-- True when the action references any index outside the ranges declared by
the schema: lattice coordinates 0..4, sight line indices 0..4, swap rows
0..1 and columns 0..5. -/
def actionOutOfRange : Action → Bool
  | .cast pos => !posOk pos
  | .transfer fromPos toPos => !(posOk fromPos && posOk toPos)
  | .recover fromPos => !posOk fromPos
  | .reveal _ idx => !(decide (idx < 5))
  | .swap r c own opp => !(decide (r < 2) && decide (c < 6) && posOk own && posOk opp)
  | .endRound => false

/-- No forced timeout fires for this submission. -/
def notTimedOut (s : RoundState) (p : Player) (t : Int) : Prop :=
  ∀ tr : TimeBank, s.timeRemaining = some tr → 0 < timeLeft tr p - (t - s.turnStartedAt)

/-- C7: the lattice is a 5x5 grid indexed by coordinates below 5, and an
action referencing any out-of-range index is rejected with unknownSlot
instead of faulting (provided the round is active, it is the actor's turn
and no timeout overrides the submission). -/
theorem out_of_range_rejected (s : RoundState) (p : Player) (a : Action) (t : Int)
    (hact : s.status = RoundStatus.active) (hturn : s.currentTurnPlayer = p)
    (htime : notTimedOut s p t) (hoor : actionOutOfRange a = true) :
    submitAction s p a t = .error RejectionReason.unknownSlot := by
  have hval : validateBody s.boardState p a = some RejectionReason.unknownSlot := by
    cases a with
    | cast pos =>
      simp only [actionOutOfRange] at hoor
      have hx := bnot_true hoor
      simp only [validateBody]
      rw [if_neg (by simp [hx])]
    | transfer fromPos toPos =>
      simp only [actionOutOfRange] at hoor
      have hx := bnot_true hoor
      simp only [validateBody]
      rw [if_neg (by simp [hx])]
    | recover fromPos =>
      simp only [actionOutOfRange] at hoor
      have hx := bnot_true hoor
      simp only [validateBody]
      rw [if_neg (by simp [hx])]
    | reveal target idx =>
      simp only [actionOutOfRange] at hoor
      have hx := bnot_true hoor
      simp only [validateBody]
      rw [if_neg (by simp [hx])]
    | swap r c own opp =>
      simp only [actionOutOfRange] at hoor
      have hx := bnot_true hoor
      simp only [validateBody]
      rw [if_neg (by simp [hx])]
    | endRound => simp [actionOutOfRange] at hoor
  rw [submitAction, if_pos hact, if_pos hturn]
  cases htr : s.timeRemaining with
  | none =>
    simp only [submitTimed]
    rw [hval]
    rfl
  | some tr =>
    have hpos := htime tr htr
    simp only [submitTimed]
    rw [if_neg (by omega), hval]
    rfl

/-- Witness for C7: casting to leftIndex 7 in a fresh untimed round is
rejected with unknownSlot. -/
theorem out_of_range_rejected_witness :
    submitAction exRound Player.player1 (Action.cast ⟨7, 0⟩) 3
      = .error RejectionReason.unknownSlot :=
  out_of_range_rejected exRound Player.player1 (Action.cast ⟨7, 0⟩) 3 rfl rfl
    (fun tr htr => Option.noConfusion htr) (by decide)

/-- Exchange of the values of a finitely indexed table at two points. -/
def exchange {α β : Type} [DecidableEq α] (f : α → β) (x1 x2 : α) : α → β :=
  Function.update (Function.update f x1 (f x2)) x2 (f x1)

lemma exchange_exchange {α β : Type} [DecidableEq α] (f : α → β) (x1 x2 : α) :
    exchange (exchange f x1 x2) x1 x2 = f := by
  funext y
  simp only [exchange, Function.update_apply]
  split_ifs <;> simp_all

/-- Board effect of a swap on the lattice: the two cells exchange their
occupancy values. -/
def swapCells (L : Fin 5 × Fin 5 → Nat) (own opp : LatticePos) : Fin 5 × Fin 5 → Nat :=
  latticeSet (latticeSet L own (latticeGet L opp)) opp (latticeGet L own)

lemma swapCells_eq_exchange (L : Fin 5 × Fin 5 → Nat) (own opp : LatticePos)
    (hob : own.leftIndex < 5 ∧ own.rightIndex < 5)
    (hpb : opp.leftIndex < 5 ∧ opp.rightIndex < 5) :
    swapCells L own opp
      = exchange L (⟨own.leftIndex, hob.1⟩, ⟨own.rightIndex, hob.2⟩)
          (⟨opp.leftIndex, hpb.1⟩, ⟨opp.rightIndex, hpb.2⟩) := by
  unfold swapCells exchange
  simp only [latticeSet, latticeGet, dif_pos hob, dif_pos hpb]

lemma swapCells_involutive (L : Fin 5 × Fin 5 → Nat) (own opp : LatticePos)
    (hob : own.leftIndex < 5 ∧ own.rightIndex < 5)
    (hpb : opp.leftIndex < 5 ∧ opp.rightIndex < 5) :
    swapCells (swapCells L own opp) own opp = L := by
  rw [swapCells_eq_exchange _ own opp hob hpb, swapCells_eq_exchange _ own opp hob hpb,
    exchange_exchange]

lemma latticeGet_swapCells_own (L : Fin 5 × Fin 5 → Nat) (own opp : LatticePos)
    (hob : own.leftIndex < 5 ∧ own.rightIndex < 5)
    (hpb : opp.leftIndex < 5 ∧ opp.rightIndex < 5) :
    latticeGet (swapCells L own opp) own = latticeGet L opp := by
  rw [swapCells_eq_exchange L own opp hob hpb]
  unfold exchange
  simp only [latticeGet, dif_pos hob, dif_pos hpb, Function.update_apply]
  split_ifs <;> simp_all

lemma latticeGet_swapCells_opp (L : Fin 5 × Fin 5 → Nat) (own opp : LatticePos)
    (hob : own.leftIndex < 5 ∧ own.rightIndex < 5)
    (hpb : opp.leftIndex < 5 ∧ opp.rightIndex < 5) :
    latticeGet (swapCells L own opp) opp = latticeGet L own := by
  rw [swapCells_eq_exchange L own opp hob hpb]
  unfold exchange
  simp only [latticeGet, dif_pos hob, dif_pos hpb, Function.update_apply]
  split_ifs <;> simp_all

lemma swapGet_swapSet_ne (S : Fin 2 × Fin 6 → Nat) (r1 c1 r2 c2 v : Nat)
    (h1 : r1 < 2 ∧ c1 < 6) (h2 : r2 < 2 ∧ c2 < 6) (hne : ¬(r1 = r2 ∧ c1 = c2)) :
    swapGet (swapSet S r1 c1 v) r2 c2 = swapGet S r2 c2 := by
  have hxy : ((⟨r2, h2.1⟩, ⟨c2, h2.2⟩) : Fin 2 × Fin 6) ≠ (⟨r1, h1.1⟩, ⟨c1, h1.2⟩) := by
    intro h
    rw [Prod.ext_iff] at h
    exact hne ⟨(congrArg Fin.val h.1).symm, (congrArg Fin.val h.2).symm⟩
  unfold swapGet swapSet
  simp only [dif_pos h1, dif_pos h2]
  exact Function.update_noteq hxy v S

/-- C9: a legal swap of the stones at positions own and opp, immediately
answered by the opponent's legal swap of the same two positions through a
fresh reserve stone and a fresh swap slot, restores the whole lattice, the
turn owner and the active status; since the restored state satisfies the
same hypotheses again whenever fresh stones and slots remain, the undo
composes any number of times. -/
theorem swap_undo (s : RoundState) (p : Player) (own opp : LatticePos)
    (r1 c1 r2 c2 : Nat) (ta tb : Int)
    (hact : s.status = RoundStatus.active)
    (huntimed : s.timeRemaining = none)
    (hturn : s.currentTurnPlayer = p)
    (hob : own.leftIndex < 5 ∧ own.rightIndex < 5)
    (hpb : opp.leftIndex < 5 ∧ opp.rightIndex < 5)
    (hown : latticeGet s.boardState.lattice own = playerNum p)
    (hopp : latticeGet s.boardState.lattice opp = playerNum (opponent p))
    (hres1 : reserveCount s.boardState p ≠ 0)
    (hres2 : reserveCount s.boardState (opponent p) ≠ 0)
    (hs1b : r1 < 2 ∧ c1 < 6) (hs2b : r2 < 2 ∧ c2 < 6)
    (hslot1 : swapGet s.boardState.swapPositions r1 c1 = 0)
    (hslot2 : swapGet s.boardState.swapPositions r2 c2 = 0)
    (hne : ¬(r1 = r2 ∧ c1 = c2)) :
    ∃ s1 e1 s2 e2,
      submitAction s p (Action.swap r1 c1 own opp) ta = Except.ok (s1, e1) ∧
      submitAction s1 (opponent p) (Action.swap r2 c2 own opp) tb = Except.ok (s2, e2) ∧
      s2.boardState.lattice = s.boardState.lattice ∧
      s2.currentTurnPlayer = p ∧
      s2.status = RoundStatus.active := by
  have hne1 : playerNum (opponent p) ≠ playerNum p := playerNum_inj _ _ (opponent_ne p)
  have hnz1 : playerNum (opponent p) ≠ 0 := playerNum_ne_zero _
  have hnz2 : playerNum p ≠ 0 := playerNum_ne_zero _
  have hne2 : playerNum p ≠ playerNum (opponent p) := fun h => hne1 h.symm
  have hval1 : validateBody s.boardState p (Action.swap r1 c1 own opp) = none := by
    simp only [validateBody]
    rw [if_pos (by simp [posOk, hob.1, hob.2, hpb.1, hpb.2, hs1b.1, hs1b.2])]
    rw [if_neg hres1, if_neg (by simp [hslot1]), if_neg (by simp [hown]),
      if_neg (by rw [hopp]; exact hne1), if_neg (by rw [hopp]; exact hnz1)]
  have hsub1 : submitAction s p (Action.swap r1 c1 own opp) ta
      = Except.ok (applyBody s p (Action.swap r1 c1 own opp) ta,
          ⟨s.turnNumber, p, Action.swap r1 c1 own opp, ta⟩) := by
    rw [submitAction, if_pos hact, if_pos hturn, huntimed]
    simp only [submitTimed]
    rw [hval1]
    rfl
  have h1lat : (applyBody s p (Action.swap r1 c1 own opp) ta).boardState.lattice
      = swapCells s.boardState.lattice own opp := by
    cases p <;> rfl
  have h1swap : (applyBody s p (Action.swap r1 c1 own opp) ta).boardState.swapPositions
      = swapSet s.boardState.swapPositions r1 c1 (playerNum p) := by
    cases p <;> rfl
  have h1res : reserveCount (applyBody s p (Action.swap r1 c1 own opp) ta).boardState
      (opponent p) = reserveCount s.boardState (opponent p) := by
    cases p <;> rfl
  have h1status : (applyBody s p (Action.swap r1 c1 own opp) ta).status
      = RoundStatus.active := hact
  have h1time : (applyBody s p (Action.swap r1 c1 own opp) ta).timeRemaining = none := huntimed
  have h1turn : (applyBody s p (Action.swap r1 c1 own opp) ta).currentTurnPlayer
      = opponent p := by
    show opponent s.currentTurnPlayer = opponent p
    rw [hturn]
  have h1own : latticeGet (applyBody s p (Action.swap r1 c1 own opp) ta).boardState.lattice own
      = playerNum (opponent p) := by
    rw [h1lat, latticeGet_swapCells_own _ own opp hob hpb, hopp]
  have h1opp : latticeGet (applyBody s p (Action.swap r1 c1 own opp) ta).boardState.lattice opp
      = playerNum p := by
    rw [h1lat, latticeGet_swapCells_opp _ own opp hob hpb, hown]
  have h1slot : swapGet
      (applyBody s p (Action.swap r1 c1 own opp) ta).boardState.swapPositions r2 c2 = 0 := by
    rw [h1swap, swapGet_swapSet_ne _ r1 c1 r2 c2 _ hs1b hs2b hne, hslot2]
  have hval2 : validateBody (applyBody s p (Action.swap r1 c1 own opp) ta).boardState
      (opponent p) (Action.swap r2 c2 own opp) = none := by
    simp only [validateBody]
    rw [if_pos (by simp [posOk, hob.1, hob.2, hpb.1, hpb.2, hs2b.1, hs2b.2])]
    rw [if_neg (by rw [h1res]; exact hres2), if_neg (by simp [h1slot]),
      if_neg (by simp [h1own]), if_neg (by rw [h1opp]; exact hne2),
      if_neg (by rw [h1opp]; exact hnz2)]
  have hsub2 : submitAction (applyBody s p (Action.swap r1 c1 own opp) ta) (opponent p)
      (Action.swap r2 c2 own opp) tb
      = Except.ok (applyBody (applyBody s p (Action.swap r1 c1 own opp) ta) (opponent p)
          (Action.swap r2 c2 own opp) tb,
        ⟨(applyBody s p (Action.swap r1 c1 own opp) ta).turnNumber, opponent p,
          Action.swap r2 c2 own opp, tb⟩) := by
    rw [submitAction, if_pos h1status, if_pos h1turn, h1time]
    simp only [submitTimed]
    rw [hval2]
    rfl
  have h2lat : (applyBody (applyBody s p (Action.swap r1 c1 own opp) ta) (opponent p)
      (Action.swap r2 c2 own opp) tb).boardState.lattice
      = swapCells (applyBody s p (Action.swap r1 c1 own opp) ta).boardState.lattice own opp := by
    cases p <;> rfl
  refine ⟨_, _, _, _, hsub1, hsub2, ?_, ?_, ?_⟩
  · rw [h2lat, h1lat, swapCells_involutive _ own opp hob hpb]
  · show opponent (applyBody s p (Action.swap r1 c1 own opp) ta).currentTurnPlayer = p
    rw [h1turn, opponent_opponent]
  · exact h1status

def exSwapLattice : Fin 5 × Fin 5 → Nat := fun x =>
  if x = ((1 : Fin 5), (1 : Fin 5)) then 1
  else if x = ((3 : Fin 5), (3 : Fin 5)) then 2
  else 0

def exSwapBoard : BoardState :=
  { initialBoard with lattice := exSwapLattice, player1ReserveCount := 7, player2ReserveCount := 7 }

def exSwapRound : RoundState :=
  { mkRound exT1 exT2 Player.player1 none 0 0 with boardState := exSwapBoard }

/-- Witness for C9: with a player1 stone on (1,1) and a player2 stone on
(3,3), swapping and immediately re-swapping through two distinct fresh swap
slots restores the lattice, the turn and the active phase. -/
theorem swap_undo_witness :
    ∃ s1 e1 s2 e2,
      submitAction exSwapRound Player.player1 (Action.swap 0 0 ⟨1, 1⟩ ⟨3, 3⟩) 1
        = Except.ok (s1, e1) ∧
      submitAction s1 Player.player2 (Action.swap 0 1 ⟨1, 1⟩ ⟨3, 3⟩) 2
        = Except.ok (s2, e2) ∧
      s2.boardState.lattice = exSwapRound.boardState.lattice ∧
      s2.currentTurnPlayer = Player.player1 ∧
      s2.status = RoundStatus.active :=
  swap_undo exSwapRound Player.player1 ⟨1, 1⟩ ⟨3, 3⟩ 0 0 0 1 1 2
    rfl rfl rfl (by decide) (by decide) (by decide) (by decide) (by decide) (by decide)
    (by decide) (by decide) (by decide) (by decide) (by decide)

/-- Side of the board in stone-positions.ts: left for player1, right for
player2. -/
inductive Side where
  | left
  | right
  deriving DecidableEq

/-- StonePosition of src/stone-positions.ts: the literal union types of the
TypeScript indices become Fin types. -/
inductive StonePosition where
  | reserve (side : Side) (index : Fin 8)
  | lattice (leftIndex : Fin 5) (rightIndex : Fin 5)
  | reveal (side : Side) (index : Fin 5)
  | swap (row : Fin 2) (col : Fin 6)
  deriving DecidableEq

/-- Coordinate record returned by getStoneCoords. -/
structure Coords where
  x : Rat
  y : Rat
  z : Rat

def reserveY : Rat := -0.044

def boardY : Rat := -0.019

def reserveLeftCoords : List (Rat × Rat) :=
  [(0.045, 0.137), (0.064, 0.137), (0.054, 0.122), (0.081, 0.132),
   (0.071, 0.117), (0.094, 0.119), (0.084, 0.105), (0.102, 0.103)]

def reserveRightCoords : List (Rat × Rat) :=
  [(0.045, -0.137), (0.064, -0.137), (0.054, -0.122), (0.081, -0.132),
   (0.071, -0.117), (0.094, -0.119), (0.084, -0.105), (0.102, -0.103)]

def latticeCoords : List (List (Rat × Rat)) :=
  [[(0.003, 0.078), (0.018, 0.059), (0.031, 0.039), (0.045, 0.02), (0.059, 0.002)],
   [(-0.011, 0.06), (0.002, 0.041), (0.016, 0.021), (0.029, 0.002), (0.045, -0.017)],
   [(-0.026, 0.04), (-0.012, 0.021), (0.001, 0.002), (0.016, -0.018), (0.031, -0.036)],
   [(-0.041, 0.021), (-0.027, 0.001), (-0.013, -0.018), (0.002, -0.037), (0.018, -0.054)],
   [(-0.054, 0.002), (-0.041, -0.018), (-0.026, -0.038), (-0.011, -0.056), (0.005, -0.073)]]

def revealLeftCoords : List (Rat × Rat) :=
  [(-0.009, 0.1), (-0.029, 0.089), (-0.049, 0.077), (-0.07, 0.065), (-0.089, 0.053)]

def revealRightCoords : List (Rat × Rat) :=
  [(-0.087, -0.05), (-0.068, -0.062), (-0.048, -0.075), (-0.029, -0.085), (-0.009, -0.096)]

def swapCoords : List (List (Rat × Rat)) :=
  [[(0.105, 0.049), (0.105, 0.03), (0.105, 0.012), (0.105, -0.007), (0.105, -0.026), (0.105, -0.045)],
   [(0.087, 0.049), (0.087, 0.03), (0.087, 0.012), (0.087, -0.007), (0.087, -0.026), (0.087, -0.045)]]

def sideList (l r : List (Rat × Rat)) : Side → List (Rat × Rat)
  | .left => l
  | .right => r

/-- getStoneCoords of src/stone-positions.ts.  TypeScript array indexing can
produce undefined on out-of-bounds access, so each table lookup is embedded
as an Option-returning access. -/
def getStoneCoords : StonePosition → Option Coords
  | .reserve side i =>
    ((sideList reserveLeftCoords reserveRightCoords side).get? i.val).map
      (fun c => ⟨c.1, reserveY, c.2⟩)
  | .lattice li ri =>
    (latticeCoords.get? li.val).bind fun row =>
      (row.get? ri.val).map (fun c => ⟨c.1, boardY, c.2⟩)
  | .reveal side i =>
    ((sideList revealLeftCoords revealRightCoords side).get? i.val).map
      (fun c => ⟨c.1, boardY, c.2⟩)
  | .swap row col =>
    (swapCoords.get? row.val).bind fun rowList =>
      (rowList.get? col.val).map (fun c => ⟨c.1, boardY, c.2⟩)

/-- C10: getStoneCoords is total: for every stone position permitted by the
StonePosition type, every array access into the coordinate tables is in
bounds and a defined coordinate record is returned. -/
theorem getStoneCoords_total (pos : StonePosition) :
    (getStoneCoords pos).isSome = true := by
  cases pos with
  | reserve side i => cases side <;> fin_cases i <;> rfl
  | lattice li ri => fin_cases li <;> fin_cases ri <;> rfl
  | reveal side i => cases side <;> fin_cases i <;> rfl
  | swap row col => fin_cases row <;> fin_cases col <;> rfl

end SneakyTown
